import Mathlib

/-!
Verification development for the techiesproject.com static-site pipeline
(scripts/build.js, scripts/verify.js, scripts/extract.js).

Text is modelled as `List Char`.  JavaScript's
`result.split(pat).join(rep)` on a nonempty separator is leftmost,
non-overlapping global replacement; `replaceAll` below implements exactly
that, via a fuel parameter so that the definition is structurally
recursive (the fuel is the length of the scanned text, which always
suffices because every step consumes at least one character).
-/

namespace Techies

set_option maxRecDepth 20000

/-- Text, modelled as a list of characters. -/
abbrev Str := List Char

/-- `s` contains no opening curly brace (so no placeholder can start inside it). -/
def NoCurly (s : Str) : Prop := Char.ofNat 123 ∉ s

instance (s : Str) : Decidable (NoCurly s) := by unfold NoCurly; infer_instance

/-- The template placeholder for a key: the JS code writes `"\x7b\x7b" + key + "\x7d\x7d"`. -/
def placeholder (k : Str) : Str :=
  Char.ofNat 123 :: Char.ofNat 123 :: (k ++ [Char.ofNat 125, Char.ofNat 125])

/-- Worker for `replaceAll`: scans `s`, replacing each leftmost occurrence of
`pat` by `rep` and continuing after it.  `fuel ≥ s.length` makes the
recursion structural without changing the result. -/
def goReplace (pat rep : Str) : Nat → Str → Str
  | 0, s => s
  | _ + 1, [] => []
  | fuel + 1, c :: rest =>
    if pat ≠ [] ∧ pat.isPrefixOf (c :: rest) then
      rep ++ goReplace pat rep fuel ((c :: rest).drop pat.length)
    else
      c :: goReplace pat rep fuel rest

/-- JS `s.split(pat).join(rep)` for a nonempty `pat`: leftmost,
non-overlapping global replacement of `pat` by `rep` in `s`. -/
def replaceAll (pat rep s : Str) : Str :=
  goReplace pat rep s.length s

/-- build.js `render`: fold over the entries of `vars` (in insertion
order), replacing every occurrence of `\x7b\x7bKEY\x7d\x7d` by the value. -/
def render (template : Str) (vars : List (Str × Str)) : Str :=
  vars.foldl (fun acc kv => replaceAll (placeholder kv.1) kv.2 acc) template

/-- extract.js `extractBetween`'s `indexOf` (also the engine behind the JS
`String.prototype.includes` checks of verify.js): the first index at which
`pat` occurs in `l` (`none` models JS's `-1`). -/
def strIndexOf (pat : Str) : Str → Option Nat
  | [] => if pat.isPrefixOf [] then some 0 else none
  | c :: rest =>
    if pat.isPrefixOf (c :: rest) then some 0
    else (strIndexOf pat rest).map (· + 1)

/-- JS `html.includes(pat)`. -/
def strContains (html pat : Str) : Bool := (strIndexOf pat html).isSome

-- ---------------------------------------------------------------------------
-- Closed-form rendering of a template whose placeholders, in template order,
-- are exactly the keys of the variable map, in map order.
-- ---------------------------------------------------------------------------

/-- A template as a leading literal segment followed, for each key, by its
placeholder and the literal segment after it. -/
def mkTemplate (seg0 : Str) : List (Str × Str) → Str
  | [] => seg0
  | (k, seg) :: rest => seg0 ++ placeholder k ++ mkTemplate seg rest

/-- The variable map pairing each key of the skeleton with a value. -/
def zipVars (ks : List (Str × Str)) (vs : List Str) : List (Str × Str) :=
  List.zipWith (fun kseg v => (kseg.1, v)) ks vs

/-- The fully substituted text: each placeholder replaced by its value. -/
def mkResult (seg0 : Str) : List (Str × Str) → List Str → Str
  | [], _ => seg0
  | _, [] => seg0
  | (_, seg) :: rest, v :: vrest => seg0 ++ v ++ mkResult seg rest vrest

/-- Side condition on a template skeleton: segments are brace-free and no
placeholder occurs in the template text that follows its own position. -/
def SegsOk : List (Str × Str) → Prop
  | [] => True
  | (k, seg) :: rest => NoCurly seg
      ∧ strContains (mkTemplate seg rest) (placeholder k) = false ∧ SegsOk rest

instance instDecSegsOk : (ks : List (Str × Str)) → Decidable (SegsOk ks)
  | [] => isTrue trivial
  | (k, seg) :: rest =>
    have : Decidable (SegsOk rest) := instDecSegsOk rest
    decidable_of_iff (NoCurly seg
      ∧ strContains (mkTemplate seg rest) (placeholder k) = false ∧ SegsOk rest)
      Iff.rfl

-- ---------------------------------------------------------------------------
-- Data model: the Intermediate Store records (people.json / categories.json).
-- ---------------------------------------------------------------------------

/-- An entry of a PersonRecord's `personal_links` array. -/
structure PersonalLink where
  url : Str
  label : Str
deriving DecidableEq

/-- A `prev`/`next` weak reference (display name + slug). -/
structure PersonRef where
  name : Str
  slug : Str
deriving DecidableEq

/-- A PersonRecord of people.json. -/
structure Person where
  slug : Str
  post_id : Nat
  name : Str
  hero_image : Str
  thumbnail : Str
  years_in_tech : Str
  role : Str
  location : Str
  interview_date : Str
  abstract : Str
  personal_links : List PersonalLink
  interview_content : Str
  prev : Option PersonRef
  next : Option PersonRef
  title : Str
deriving DecidableEq

/-- A CategoryRecord of categories.json. -/
structure Category where
  slug : Str
  display_name : Str
  post_ids : List Nat
deriving DecidableEq

/-- Decimal rendering of a numeric id, as JS template interpolation does. -/
def natToStr (n : Nat) : Str := (Nat.repr n).toList

-- ---------------------------------------------------------------------------
-- build.js
-- ---------------------------------------------------------------------------

/-- build.js `peopleByPostId[p.post_id] = p` (one assignment of the forEach). -/
def pbpStep (m : Nat → Option Person) (p : Person) : Nat → Option Person :=
  fun i => if i = p.post_id then some p else m i

/-- build.js `peopleByPostId`: lookup object built by a forEach of
assignments, so a later record overwrites an earlier one with the same id. -/
def peopleByPostId (people : List Person) : Nat → Option Person :=
  people.foldl pbpStep (fun _ => none)

/-- Modelled from the spec: the repository's template files under
`src/templates/` are not part of the given sources, so each template is
modelled as literal text with the named placeholders the spec's template
contract and build.js's `render` calls require, each appearing once, in the
order of the corresponding variable map. -/
def headPartial : Str :=
  mkTemplate "<head>\n<meta charset=\"utf-8\">\n".toList
    [("HEAD_EXTRA".toList, "\n</head>\n".toList)]

/-- Modelled from the spec: nav partial with the two active-state flags. -/
def navPartial : Str :=
  mkTemplate "<nav><a class=\"".toList
    [("ABOUT_ACTIVE".toList, " about\" href=\"/about/\">About</a><a class=\"".toList),
     ("SUBMIT_ACTIVE".toList, " submit\" href=\"/submit/\">Submit</a></nav>\n".toList)]

/-- Modelled from the spec: footer partial (no placeholders). -/
def footerPartial : Str := "<footer>Techies</footer>\n".toList

/-- Modelled from the spec: scripts partial (no placeholders). -/
def scriptsPartial : Str := "<script src=\"/assets/js/app.js\"></script>\n".toList

/-- build.js `buildHead`. -/
def buildHead (headExtra : Str) : Str :=
  render headPartial [("HEAD_EXTRA".toList, headExtra)]

/-- build.js `buildNav`. -/
def buildNav (aboutActive submitActive : Bool) : Str :=
  render navPartial
    [("ABOUT_ACTIVE".toList, if aboutActive then "active".toList else []),
     ("SUBMIT_ACTIVE".toList, if submitActive then "active".toList else [])]

/-- build.js person-page head extras: canonical link plus optional
prev/next relation links. -/
def personHeadExtra (p : Person) : Str :=
  let base := "<link rel=\"canonical\" href=\"/".toList ++ p.slug ++ "/\" />".toList
  let base := match p.prev with
    | some pr => base ++ "\n<link rel='prev' title='".toList ++ pr.name
        ++ "' href='/".toList ++ pr.slug ++ "/' />".toList
    | none => base
  match p.next with
  | some nx => base ++ "\n<link rel='next' title='".toList ++ nx.name
      ++ "' href='/".toList ++ nx.slug ++ "/' />".toList
  | none => base

/-- build.js: one `<li>` of the personal-links list. -/
def linkItem (l : PersonalLink) : Str :=
  "        <li><a href=\"".toList ++ l.url ++ "\">".toList ++ l.label ++ "</a></li>".toList

/-- build.js `linksHtml`: the personal links joined by newlines. -/
def linksHtml (p : Person) : Str :=
  List.intercalate "\n".toList (p.personal_links.map linkItem)

/-- Modelled from the spec: the person-page template skeleton (key, following
segment), placeholders in the order of build.js's variable map. -/
def personKS : List (Str × Str) :=
  [("HEAD".toList, "<body>\n".toList),
   ("NAV".toList, "\n<h1>".toList),
   ("FOOTER".toList, "\n".toList),
   ("SCRIPTS".toList, "\n<div class=\"techie-name col-md-12\">\n".toList),
   ("NAME".toList,
     "\n</div>\n<div class=\"featured-image\">\n<img src=\"/d1lhy388c2xgxf/portraits/".toList),
   ("HERO_IMAGE".toList,
     "\">\n</div>\n<div class=\"col-xs-12 col-md-3 photo\">\n<img src=\"/d1lhy388c2xgxf/thumbnails/".toList),
   ("THUMBNAIL".toList, "\">\n</div>\n<li class=\"icon years\"><p class=\"text\">".toList),
   ("YEARS_IN_TECH".toList,
     "</p></li>\n<li class=\"icon role\"><p class=\"col-xs-12 col-md-8 text\">".toList),
   ("ROLE".toList, "</p></li>\n<li class=\"icon location\"><p class=\"text\">".toList),
   ("LOCATION".toList, "</p></li>\n<li class=\"icon date\"><p class=\"text\">".toList),
   ("INTERVIEW_DATE".toList, "</p></li>\n<div class=\"col-md-6 abstract\">".toList),
   ("ABSTRACT".toList, "</div>\n<div class=\"personal-links\">\n<ul>\n".toList),
   ("PERSONAL_LINKS".toList,
     "\n</ul>\n</div>\n<div class=\"col-xs-12 col-md-6 post\">".toList),
   ("INTERVIEW_CONTENT".toList, "</div>\n</body>\n</html>\n".toList)]

/-- Modelled from the spec: the person-page template text. -/
def personTemplate : Str := mkTemplate "<!doctype html>\n<html>\n".toList personKS

/-- build.js: the variable map of the person-page `render` call, in
`Object.entries` (insertion) order. -/
def personVars (p : Person) : List (Str × Str) :=
  [("HEAD".toList, buildHead (personHeadExtra p)),
   ("NAV".toList, buildNav false false),
   ("FOOTER".toList, footerPartial),
   ("SCRIPTS".toList, scriptsPartial),
   ("NAME".toList, p.name),
   ("HERO_IMAGE".toList, p.hero_image),
   ("THUMBNAIL".toList, p.thumbnail),
   ("YEARS_IN_TECH".toList, p.years_in_tech),
   ("ROLE".toList, p.role),
   ("LOCATION".toList, p.location),
   ("INTERVIEW_DATE".toList, p.interview_date),
   ("ABSTRACT".toList, p.abstract),
   ("PERSONAL_LINKS".toList, linksHtml p),
   ("INTERVIEW_CONTENT".toList, p.interview_content)]

/-- build.js: the rendered person page. -/
def personPageHtml (p : Person) : Str := render personTemplate (personVars p)

/-- build.js: one `<li>` of the homepage category list. -/
def categoryListItem (c : Category) : Str :=
  "              <li id=\"".toList ++ c.slug
    ++ "\" class=\"cat-item\"><a href=\"/category/".toList ++ c.slug
    ++ "/\">".toList ++ c.display_name ++ "</a></li>".toList

/-- build.js `categoryListHtml` (homepage, one item per line). -/
def categoryListHtml (cats : List Category) : Str :=
  List.intercalate "\n".toList (cats.map categoryListItem)

/-- build.js: one homepage gallery card. -/
def homepageCard (p : Person) : Str :=
  "  <div id=\"post-".toList ++ natToStr p.post_id
    ++ "\" class=\"techie-gallery col-xs-6 col-sm-4 col-md-3\">\n    <a class=\"techie-thumbnail\" href=\"/".toList
    ++ p.slug
    ++ "/\">\n      <img src=\"/d1lhy388c2xgxf/thumbnails/".toList
    ++ p.thumbnail
    ++ "\" width=\"280px\" height=\"390px\">\n      <div class=\"techie-info\">\n        <p class=\"name\">".toList
    ++ p.name
    ++ "</p>\n        <p class=\"title\">".toList
    ++ p.title
    ++ "&nbsp</p>\n      </div>\n    </a>\n  </div>".toList

/-- build.js `homepageCardsHtml`: all people, in order. -/
def homepageCardsHtml (people : List Person) : Str :=
  List.intercalate "\n\n  <!-- end loop -->\n  ".toList (people.map homepageCard)

/-- Modelled from the spec: the homepage template skeleton. -/
def homepageKS : List (Str × Str) :=
  [("HEAD".toList, "<body>\n".toList),
   ("NAV".toList, "\n".toList),
   ("FOOTER".toList, "\n".toList),
   ("SCRIPTS".toList, "\n<ul class=\"cat-list\">\n".toList),
   ("CATEGORY_LIST".toList, "\n</ul>\n<div class=\"gallery\">\n".toList),
   ("GALLERY_CARDS".toList, "\n</div>\n</body>\n</html>\n".toList)]

/-- Modelled from the spec: the homepage template text. -/
def homepageTemplate : Str := mkTemplate "<!doctype html>\n<html>\n".toList homepageKS

/-- build.js: the rendered homepage. -/
def homepageHtml (people : List Person) (cats : List Category) : Str :=
  render homepageTemplate
    [("HEAD".toList, buildHead []),
     ("NAV".toList, buildNav false false),
     ("FOOTER".toList, footerPartial),
     ("SCRIPTS".toList, scriptsPartial),
     ("CATEGORY_LIST".toList, categoryListHtml cats),
     ("GALLERY_CARDS".toList, homepageCardsHtml people)]

/-- build.js: one `<li>` of the inline category list used on category pages. -/
def categoryListInlineItem (c : Category) : Str :=
  "<li id=".toList ++ c.slug ++ " class='cat-item'><a href='/category/".toList
    ++ c.slug ++ "/'>".toList ++ c.display_name ++ "</a></li>".toList

/-- build.js `categoryListInline` (joined with the empty string). -/
def categoryListInline (cats : List Category) : Str :=
  List.intercalate [] (cats.map categoryListInlineItem)

/-- build.js: `cat.post_ids.map(id => peopleByPostId[id]).filter(Boolean)` —
the members of a category that resolve to a PersonRecord, dangling ids
silently dropped. -/
def catPeople (people : List Person) (cat : Category) : List Person :=
  (cat.post_ids.map (peopleByPostId people)).filterMap id

/-- build.js: one category-page gallery card (markup differs from the
homepage's). -/
def categoryCard (p : Person) : Str :=
  "  <div id=\"post-".toList ++ natToStr p.post_id
    ++ "\" class=\"techie-gallery col-lg-3 col-md-4 col-sm-6\">\n    <a class=\"techie-thumbnail\" href=\"/".toList
    ++ p.slug
    ++ "/\">\n      <img src=\"/d1lhy388c2xgxf/thumbnails/".toList
    ++ p.thumbnail
    ++ "\" width=\"280px\" height=\"390px\">\n      <p class=\"name\">".toList
    ++ p.name
    ++ "</p>\n      <p class=\"title\">".toList
    ++ p.title
    ++ "&nbsp;</p>\n    </a>\n  </div>".toList

/-- build.js `cardsHtml` for one category page. -/
def categoryCardsHtml (people : List Person) (cat : Category) : Str :=
  List.intercalate "\n\n<!-- end loop -->\n".toList ((catPeople people cat).map categoryCard)

/-- Modelled from the spec: the category-page template skeleton. -/
def categoryKS : List (Str × Str) :=
  [("HEAD".toList, "<body>\n".toList),
   ("NAV".toList, "\n".toList),
   ("FOOTER".toList, "\n".toList),
   ("SCRIPTS".toList, "\n<ul class=\"cat-list\">".toList),
   ("CATEGORY_LIST_INLINE".toList, "</ul>\n<div class=\"gallery\">\n".toList),
   ("GALLERY_CARDS".toList, "\n</div>\n</body>\n</html>\n".toList)]

/-- Modelled from the spec: the category-page template text. -/
def categoryTemplate : Str := mkTemplate "<!doctype html>\n<html>\n".toList categoryKS

/-- build.js: the rendered page of one category. -/
def categoryPageHtml (people : List Person) (cats : List Category) (cat : Category) : Str :=
  render categoryTemplate
    [("HEAD".toList, buildHead []),
     ("NAV".toList, buildNav false false),
     ("FOOTER".toList, footerPartial),
     ("SCRIPTS".toList, scriptsPartial),
     ("CATEGORY_LIST_INLINE".toList, categoryListInline cats),
     ("GALLERY_CARDS".toList, categoryCardsHtml people cat)]

/-- Modelled from the spec: the about-page template (placeholders only for
head, nav, footer, scripts). -/
def fixedKS : List (Str × Str) :=
  [("HEAD".toList, "<body>\n".toList),
   ("NAV".toList, "\n<main>static</main>\n".toList),
   ("FOOTER".toList, "\n".toList),
   ("SCRIPTS".toList, "\n</body>\n</html>\n".toList)]

/-- Modelled from the spec: the about template text. -/
def aboutTemplate : Str := mkTemplate "<!doctype html>\n<html>\n".toList fixedKS

/-- Modelled from the spec: the submit template text. -/
def submitTemplate : Str := mkTemplate "<!doctype html>\n<html>\n".toList fixedKS

/-- build.js: the rendered about page. -/
def aboutHtml : Str :=
  render aboutTemplate
    [("HEAD".toList, buildHead "<link rel=\"canonical\" href=\"/about/\" />".toList),
     ("NAV".toList, buildNav true false),
     ("FOOTER".toList, footerPartial),
     ("SCRIPTS".toList, scriptsPartial)]

/-- build.js: the rendered submit page. -/
def submitHtml : Str :=
  render submitTemplate
    [("HEAD".toList, buildHead ("<link rel=\"canonical\" href=\"/submit/\" />\n<link rel='stylesheet' href='/assets/css/wpgform.css' type='text/css' media='all' />".toList)),
     ("NAV".toList, buildNav false true),
     ("FOOTER".toList, footerPartial),
     ("SCRIPTS".toList, scriptsPartial)]

-- ---------------------------------------------------------------------------
-- The output tree written by build.js.
-- ---------------------------------------------------------------------------

/-- A path under `_output`, as segments. -/
abbrev OutPath := List Str

/-- The output tree: the files written, in write order (a later write to the
same path overwrites an earlier one). -/
abbrev FS := List (OutPath × Str)

/-- `_output/<slug>/index.html`. -/
def personPath (p : Person) : OutPath := [p.slug, "index.html".toList]

/-- `_output/category/<slug>/index.html`. -/
def categoryPath (c : Category) : OutPath :=
  ["category".toList, c.slug, "index.html".toList]

/-- The whole build run of build.js: the files it writes, in write order.
The asset tree copied verbatim from the input (and the favicon) are external
inputs, passed through as `assetFiles` and `faviconContent`. -/
def buildSite (assetFiles : FS) (faviconContent : Str)
    (people : List Person) (cats : List Category) : FS :=
  assetFiles
  ++ [(["favicon.ico".toList], faviconContent),
      (["robots.txt".toList], "User-agent: *\nAllow: /\n".toList)]
  ++ people.map (fun p => (personPath p, personPageHtml p))
  ++ [(["index.html".toList], homepageHtml people cats)]
  ++ cats.map (fun c => (categoryPath c, categoryPageHtml people cats c))
  ++ [(["about".toList, "index.html".toList], aboutHtml),
      (["submit".toList, "index.html".toList], submitHtml)]

/-- Read a file from the written output: the LAST write to the path wins,
as with a real file system. -/
def fsRead (fs : FS) (p : OutPath) : Option Str :=
  fs.foldl (fun acc e => if e.1 = p then some e.2 else acc) none

-- ---------------------------------------------------------------------------
-- build.js run on a prior output tree: `fs.rmSync(OUTPUT, {recursive,force})`
-- wipes whatever was there, then the pages are written.
-- ---------------------------------------------------------------------------

/-- The state of the output directory as a map from path to contents. -/
abbrev World := OutPath → Option Str

/-- `fs.rmSync(OUTPUT, { recursive: true, force: true })`: after the wipe no
file of the previous output tree remains. -/
def wipeOutput (_prior : World) : World := fun _ => none

/-- Apply the writes of a build, in order, to a world. -/
def applyWrites (w : World) (files : FS) : World :=
  files.foldl (fun acc e => fun q => if q = e.1 then some e.2 else acc q) w

/-- One whole run of build.js over a prior state of `_output`: wipe, then
write every page. -/
def buildRun (assetFiles : FS) (faviconContent : Str)
    (people : List Person) (cats : List Category) (prior : World) : World :=
  applyWrites (wipeOutput prior) (buildSite assetFiles faviconContent people cats)

-- ---------------------------------------------------------------------------
-- verify.js
-- ---------------------------------------------------------------------------

/-- The two counters of verify.js (`let errors = 0; let warnings = 0`). -/
structure VState where
  errors : Nat
  warnings : Nat
deriving DecidableEq

/-- verify.js `check(condition, msg)`: count an error when the condition
fails. -/
def check (cond : Bool) (s : VState) : VState :=
  if cond then s else { s with errors := s.errors + 1 }

/-- verify.js `warn(msg)`: count a warning. -/
def warn (s : VState) : VState := { s with warnings := s.warnings + 1 }

/-- verify.js section 1: the checks of one person page. -/
def verifyPerson (out : FS) (s : VState) (p : Person) : VState :=
  let s := check (fsRead out (personPath p)).isSome s
  match fsRead out (personPath p) with
  | none => s
  | some html =>
    let s := check (strContains html p.name) s
    let s := check (strContains html p.hero_image) s
    let s := check (strContains html p.thumbnail) s
    if 100 < p.interview_content.length then
      check (strContains html (p.interview_content.take 80)) s
    else s

/-- verify.js: the card marker `id="post-<pid>"` looked for on category pages
and the homepage. -/
def postMarker (pid : Nat) : Str :=
  "id=\"post-".toList ++ natToStr pid ++ "\"".toList

/-- verify.js section 2: the checks of one category page — the page must
exist and must contain the card marker of EVERY id in `post_ids`. -/
def verifyCategory (out : FS) (s : VState) (cat : Category) : VState :=
  let s := check (fsRead out (categoryPath cat)).isSome s
  match fsRead out (categoryPath cat) with
  | none => s
  | some html =>
    cat.post_ids.foldl (fun st pid => check (strContains html (postMarker pid)) st) s

/-- verify.js section 3: static pages and root files must exist. -/
def verifyStatic (out : FS) (s : VState) : VState :=
  let s := check (fsRead out ["index.html".toList]).isSome s
  let s := check (fsRead out ["about".toList, "index.html".toList]).isSome s
  let s := check (fsRead out ["submit".toList, "index.html".toList]).isSome s
  let s := check (fsRead out ["favicon.ico".toList]).isSome s
  check (fsRead out ["robots.txt".toList]).isSome s

/-- verify.js: the homepage link marker `href="/<slug>/"`. -/
def homeLink (p : Person) : Str :=
  "href=\"/".toList ++ p.slug ++ "/\"".toList

/-- verify.js section 4 body: for every person the homepage must contain the
card marker and the person's link. -/
def verifyHomepage (home : Str) (people : List Person) (s : VState) : VState :=
  people.foldl (fun st p =>
    let st := check (strContains home (postMarker p.post_id)) st
    check (strContains home (homeLink p)) st) s

/-- A path of an output document verify.js's directory walk collects
(`entry.name.endsWith('.html')`). -/
def isHtmlPath (p : OutPath) : Bool :=
  match p.getLast? with
  | some n => decide (".html".toList <:+ n)
  | none => false

/-- verify.js section 5: every local `src=`/`href=` asset reference of every
output document must resolve; a miss is a warning, never an error.  The
regex that pulls the references out of the text is the JS regex engine — an
external collaborator — modelled as the function `refsOf`; whether a
referenced asset file exists in the copied asset tree is `assetExists`.
`visited` is verify.js's `checkedPaths` de-duplication set. -/
def verifyAssets (refsOf : Str → List Str) (assetExists : Str → Bool)
    (files : FS) (acc : VState × List Str) : VState × List Str :=
  files.foldl (fun acc1 e =>
    (refsOf e.2).foldl (fun acc2 ref =>
      if ref ∈ acc2.2 then acc2
      else (if assetExists ref then acc2.1 else warn acc2.1, ref :: acc2.2)) acc1) acc

/-- verify.js section 6: same warning-only resolution for the `url()`
references of the known stylesheet (`cssRefs` is what the regex extracted,
empty when the stylesheet is absent). -/
def verifyCss (cssRefs : List Str) (assetExists : Str → Bool)
    (acc : VState × List Str) : VState × List Str :=
  cssRefs.foldl (fun acc2 ref =>
    if ref ∈ acc2.2 then acc2
    else (if assetExists ref then acc2.1 else warn acc2.1, ref :: acc2.2)) acc

/-- verify.js section 7: the disallowed WordPress remnants. -/
def remnantStrings : List Str :=
  ["wp-content/".toList, "wp-includes/".toList, "wp-json/".toList,
   "xmlrpc.php".toList, "wpemojiSettings".toList, "s3-us-west-2".toList]

/-- verify.js section 7: a warning for each remnant found in each document. -/
def verifyRemnants (files : FS) (s : VState) : VState :=
  files.foldl (fun st e =>
    remnantStrings.foldl (fun st2 r => if strContains e.2 r then warn st2 else st2) st) s

/-- The whole verify.js run.  The one unguarded read is section 4's
`readFileSync` of the homepage: when that file is missing the process dies
with an uncaught exception (a non-zero exit), modelled as `Except.error`
carrying the counters at that point. -/
def runVerify (out : FS) (people : List Person) (cats : List Category)
    (refsOf : Str → List Str) (assetExists : Str → Bool) (cssRefs : List Str) :
    Except VState VState :=
  let s : VState := ⟨0, 0⟩
  let s := people.foldl (verifyPerson out) s
  let s := cats.foldl (verifyCategory out) s
  let s := verifyStatic out s
  match fsRead out ["index.html".toList] with
  | none => .error s
  | some home =>
    let s := verifyHomepage home people s
    let files := out.filter (fun e => isHtmlPath e.1)
    let acc := verifyAssets refsOf assetExists files (s, [])
    let acc := verifyCss cssRefs assetExists acc
    .ok (verifyRemnants files acc.1)

/-- verify.js exit status: `if (errors > 0) process.exit(1)`, otherwise the
process falls off the end and exits 0. -/
def exitCode (s : VState) : Nat := if s.errors > 0 then 1 else 0

/-- The observed exit status of the whole verifier process (an uncaught
exception also exits non-zero). -/
def exitOf : Except VState VState → Nat
  | .error _ => 1
  | .ok s => exitCode s

/-- The final value of the `errors` counter of the run. -/
def errorsOf : Except VState VState → Nat
  | .error s => s.errors
  | .ok s => s.errors

-- ---------------------------------------------------------------------------
-- extract.js
-- ---------------------------------------------------------------------------

/-- extract.js `extractBetween`: the text strictly between the first
occurrence of `startMarker` and the next occurrence of `endMarker` after it;
the empty string when either marker is missing. -/
def extractBetween (html startMarker endMarker : Str) : Str :=
  match strIndexOf startMarker html with
  | none => []
  | some startIdx =>
    let afterStart := startIdx + startMarker.length
    match strIndexOf endMarker (html.drop afterStart) with
    | none => []
    | some j => (html.drop afterStart).take j

/-- extract.js `extractMatch`: `html.match(regex)` is the JS regex engine —
an external collaborator — modelled as a matcher returning the first capture
group when the regex matches; on no match the result is the empty string. -/
def extractMatch (html : Str) (matcher : Str → Option Str) : Str :=
  (matcher html).getD []

/-- One entry of extract.js's homepage listing pass (`parseHomepage`). -/
structure HomeEntry where
  post_id : Nat
  slug : Str
  name : Str
  title : Str
deriving DecidableEq

/-- The result of extract.js `parsePersonPage(slug)` for a slug whose
document exists: every PersonRecord field except `slug` (set from the
argument) and `title` (merged later from the listing pass). -/
structure ParsedPage where
  post_id : Nat
  name : Str
  hero_image : Str
  thumbnail : Str
  years_in_tech : Str
  role : Str
  location : Str
  interview_date : Str
  abstract : Str
  personal_links : List PersonalLink
  interview_content : Str
  prev : Option PersonRef
  next : Option PersonRef
deriving DecidableEq

/-- extract.js `titleBySlug`: lookup built from all homepage entries by
assignment, so a later entry with the same slug overwrites an earlier one. -/
def titleBySlug (entries : List HomeEntry) : Str → Option Str :=
  entries.foldl (fun m e => fun s => if s = e.slug then some e.title else m s)
    (fun _ => none)

/-- extract.js main loop body for one parsed page: the gallery title from the
homepage is authoritative (`|| ''` when absent), and a zero `post_id` from
the person page falls back to the homepage entry's id
(`if (!person.post_id) person.post_id = entry.post_id`). -/
def mkPerson (entries : List HomeEntry) (e : HomeEntry) (pp : ParsedPage) : Person :=
  { slug := e.slug
    post_id := if pp.post_id = 0 then e.post_id else pp.post_id
    name := pp.name
    hero_image := pp.hero_image
    thumbnail := pp.thumbnail
    years_in_tech := pp.years_in_tech
    role := pp.role
    location := pp.location
    interview_date := pp.interview_date
    abstract := pp.abstract
    personal_links := pp.personal_links
    interview_content := pp.interview_content
    prev := pp.prev
    next := pp.next
    title := (titleBySlug entries e.slug).getD [] }

/-- extract.js main loop: walk the listing entries in order; a missing
per-entity document (`pages e.slug = none`, where parsePersonPage printed a
warning and returned null) skips the entry and counts the warning; an
existing one is merged and pushed.  Returns the People collection and the
number of warnings recorded. -/
def extractRun (entries : List HomeEntry) (pages : Str → Option ParsedPage) :
    List Person × Nat :=
  entries.foldl (fun acc e =>
    match pages e.slug with
    | none => (acc.1, acc.2 + 1)
    | some pp => (acc.1 ++ [mkPerson entries e pp], acc.2)) ([], 0)

-- ---------------------------------------------------------------------------
-- The spec's concrete scenario (section 8): person 42 "ada", categories
-- backend [42] and frontend [42, 99], where id 99 has no record.
-- ---------------------------------------------------------------------------

/-- The spec scenario's PersonRecord: `{id: 42, slug: "ada", name: "Ada",
title: "Engineer"}`. -/
def ada : Person :=
  { slug := "ada".toList
    post_id := 42
    name := "Ada".toList
    hero_image := "ada-hero.jpg".toList
    thumbnail := "ada.jpg".toList
    years_in_tech := "5".toList
    role := "Engineer".toList
    location := "SF".toList
    interview_date := "January 2016".toList
    abstract := "Short bio".toList
    personal_links := [⟨"https://example.org".toList, "site".toList⟩]
    interview_content := "Interview body".toList
    prev := none
    next := none
    title := "Engineer".toList }

/-- The spec scenario's `backend` category (all ids resolve). -/
def backendCat : Category :=
  { slug := "backend".toList, display_name := "Backend".toList, post_ids := [42] }

/-- The spec scenario's `frontend` category (id 99 is dangling). -/
def frontendCat : Category :=
  { slug := "frontend".toList, display_name := "Frontend".toList, post_ids := [42, 99] }

/-- The scenario store. -/
def demoPeople : List Person := [ada]

/-- The scenario store's categories. -/
def demoCats : List Category := [backendCat, frontendCat]

/-- The output tree build.js writes for the scenario store. -/
def demoOut : FS := buildSite [] [] demoPeople demoCats

-- ---------------------------------------------------------------------------
-- Hygiene predicates and further concrete data used by the theorems.
-- ---------------------------------------------------------------------------

/-- Brace-freedom of an optional prev/next reference. -/
def OptRefNoCurly : Option PersonRef → Prop
  | none => True
  | some r => NoCurly r.name ∧ NoCurly r.slug

instance instDecOptRefNoCurly : (o : Option PersonRef) → Decidable (OptRefNoCurly o)
  | none => isTrue trivial
  | some _ => by unfold OptRefNoCurly; infer_instance

/-- A PersonRecord none of whose text fields contains an opening curly
brace (so none contains placeholder-like text). -/
def PersonNoCurly (p : Person) : Prop :=
  NoCurly p.slug ∧ NoCurly p.name ∧ NoCurly p.hero_image ∧ NoCurly p.thumbnail ∧
  NoCurly p.years_in_tech ∧ NoCurly p.role ∧ NoCurly p.location ∧
  NoCurly p.interview_date ∧ NoCurly p.abstract ∧ NoCurly p.interview_content ∧
  (∀ l ∈ p.personal_links, NoCurly l.url ∧ NoCurly l.label) ∧
  OptRefNoCurly p.prev ∧ OptRefNoCurly p.next

instance (p : Person) : Decidable (PersonNoCurly p) := by
  unfold PersonNoCurly; infer_instance

/-- The values substituted into the person page, in variable-map order. -/
def personVals (p : Person) : List Str :=
  [buildHead (personHeadExtra p),
   buildNav false false,
   footerPartial,
   scriptsPartial,
   p.name,
   p.hero_image,
   p.thumbnail,
   p.years_in_tech,
   p.role,
   p.location,
   p.interview_date,
   p.abstract,
   linksHtml p,
   p.interview_content]

/-- A PersonRecord whose `name` is itself placeholder text for a later key
of the variable map: rendering substitutes through it. -/
def evilPerson : Person :=
  { slug := "eve".toList
    post_id := 7
    name := placeholder "ROLE".toList
    hero_image := "eve-hero.jpg".toList
    thumbnail := "eve.jpg".toList
    years_in_tech := "3".toList
    role := "X".toList
    location := "NY".toList
    interview_date := "Feb 2016".toList
    abstract := "Bio".toList
    personal_links := []
    interview_content := "Body".toList
    prev := none
    next := none
    title := "Dev".toList }

/-- Listing entries of the extraction witness: `bob`'s document is missing. -/
def witEntries : List HomeEntry :=
  [⟨7, "ada".toList, "Ada".toList, "Engineer".toList⟩,
   ⟨9, "bob".toList, "Bob".toList, "Dev".toList⟩]

/-- The parsed per-entity document of `ada`, with `post_id = 0` ("not
found"), exercising the fallback to the listing entry's id. -/
def witParsed : ParsedPage :=
  { post_id := 0
    name := "Ada".toList
    hero_image := "ada-hero.jpg".toList
    thumbnail := "ada.jpg".toList
    years_in_tech := "5".toList
    role := "Engineer".toList
    location := "SF".toList
    interview_date := "January 2016".toList
    abstract := "Short bio".toList
    personal_links := []
    interview_content := "Interview body".toList
    prev := none
    next := none }

/-- The per-entity documents of the extraction witness: only `ada` exists. -/
def witPages : Str → Option ParsedPage :=
  fun s => if s = "ada".toList then some witParsed else none

-- ---------------------------------------------------------------------------
-- Lemmas about the replacement engine and the chain rendering form.
-- ---------------------------------------------------------------------------

theorem placeholder_eq (k : Str) :
    placeholder k = '{' :: ('{' :: (k ++ ['}', '}'])) := rfl

theorem placeholder_ne_nil (k : Str) : placeholder k ≠ [] := by
  simp [placeholder_eq]

theorem NoCurly.append {a b : Str} (ha : NoCurly a) (hb : NoCurly b) :
    NoCurly (a ++ b) := by
  simp only [NoCurly, List.mem_append] at *
  tauto

/-- The fuel does not matter once it covers the length of the scanned text. -/
theorem goReplace_fuel (pat rep : Str) (hpat : pat ≠ []) :
    ∀ f₁ : Nat, ∀ f₂ : Nat, ∀ s : Str, s.length ≤ f₁ → s.length ≤ f₂ →
      goReplace pat rep f₁ s = goReplace pat rep f₂ s := by
  intro f₁
  induction f₁ with
  | zero =>
    intro f₂ s h₁ _
    have hs : s = [] := List.eq_nil_of_length_eq_zero (Nat.le_zero.mp h₁)
    subst hs
    cases f₂ <;> rfl
  | succ f₁ ih =>
    intro f₂ s h₁ h₂
    match s, f₂ with
    | [], 0 => rfl
    | [], f₂ + 1 => rfl
    | c :: rest, f₂ + 1 =>
      have hlenpat : 0 < pat.length := List.length_pos.mpr hpat
      simp only [goReplace]
      by_cases hc : pat ≠ [] ∧ pat.isPrefixOf (c :: rest)
      · simp only [if_pos hc]
        have hd : ((c :: rest).drop pat.length).length ≤ f₁ := by
          simp only [List.length_drop, List.length_cons]
          simp only [List.length_cons] at h₁
          omega
        have hd₂ : ((c :: rest).drop pat.length).length ≤ f₂ := by
          simp only [List.length_drop, List.length_cons]
          simp only [List.length_cons] at h₂
          omega
        rw [ih f₂ _ hd hd₂]
      · simp only [if_neg hc]
        have hr : rest.length ≤ f₁ := by
          simp only [List.length_cons] at h₁; omega
        have hr₂ : rest.length ≤ f₂ := by
          simp only [List.length_cons] at h₂; omega
        rw [ih f₂ rest hr hr₂]

/-- A text with no occurrence of the pattern is returned unchanged. -/
theorem goReplace_no_occurrence (pat rep : Str) :
    ∀ fuel : Nat, ∀ s : Str, ¬ pat <:+: s → goReplace pat rep fuel s = s := by
  intro fuel
  induction fuel with
  | zero => intro s _; rfl
  | succ fuel ih =>
    intro s hs
    match s with
    | [] => rfl
    | c :: rest =>
      have hnp : ¬ (pat ≠ [] ∧ pat.isPrefixOf (c :: rest)) := by
        rintro ⟨-, hpre⟩
        exact hs (List.isPrefixOf_iff_prefix.mp hpre).isInfix
      simp only [goReplace, if_neg hnp]
      rw [ih rest (fun h => hs (List.infix_cons h))]

theorem replaceAll_no_occurrence {pat s : Str} (rep : Str) (h : ¬ pat <:+: s) :
    replaceAll pat rep s = s :=
  goReplace_no_occurrence pat rep s.length s h

theorem goReplace_append (p' rep b : Str) :
    ∀ a : Str, NoCurly a → ∀ fuel : Nat, (a ++ ('{' :: p') ++ b).length ≤ fuel →
      goReplace ('{' :: p') rep fuel (a ++ ('{' :: p') ++ b)
        = a ++ rep ++ goReplace ('{' :: p') rep (fuel - (a.length + p'.length + 1)) b := by
  intro a
  induction a with
  | nil =>
    intro _ fuel hfuel
    have hlen : p'.length + 1 + b.length ≤ fuel := by
      simp only [List.length_append, List.length_cons, List.length_nil] at hfuel
      omega
    obtain ⟨f, rfl⟩ : ∃ f, fuel = f + 1 := ⟨fuel - 1, by omega⟩
    have hshape : ([] : Str) ++ ('{' :: p') ++ b = '{' :: (p' ++ b) := by simp
    rw [hshape]
    simp only [goReplace]
    rw [if_pos ⟨List.cons_ne_nil _ _, List.isPrefixOf_iff_prefix.mpr
      (show ('{' :: p') <+: ('{' :: p') ++ b from List.prefix_append _ _)⟩]
    have hdrop : ('{' :: (p' ++ b)).drop ('{' :: p').length = b :=
      List.drop_left ('{' :: p') b
    rw [hdrop]
    rw [goReplace_fuel ('{' :: p') rep (List.cons_ne_nil _ _) f
      (f + 1 - (List.length ([] : Str) + p'.length + 1)) b
      (by omega) (by simp; omega)]
    simp
  | cons c a' ih =>
    intro hnc fuel hfuel
    have hlen : a'.length + 1 + (p'.length + 1) + b.length ≤ fuel := by
      simp only [List.length_append, List.length_cons] at hfuel
      omega
    have hc : c ≠ '{' := by
      intro hc; exact hnc (by simp [NoCurly, hc])
    have hnc' : NoCurly a' := by
      simp only [NoCurly, List.mem_cons] at hnc ⊢
      tauto
    obtain ⟨f, rfl⟩ : ∃ f, fuel = f + 1 := ⟨fuel - 1, by omega⟩
    have hshape : ((c :: a') ++ ('{' :: p') ++ b) = c :: (a' ++ ('{' :: p') ++ b) := by
      simp
    rw [hshape]
    simp only [goReplace]
    have hnpre : ¬ (('{' :: p') ≠ [] ∧
        ('{' :: p').isPrefixOf (c :: (a' ++ ('{' :: p') ++ b))) := by
      rintro ⟨-, hpre⟩
      rcases List.isPrefixOf_iff_prefix.mp hpre with ⟨t, ht⟩
      have : '{' = c := by
        have := congrArg (fun l => l.head?) ht
        simpa using this
      exact hc this.symm
    rw [if_neg hnpre]
    have hflen : (a' ++ ('{' :: p') ++ b).length ≤ f := by
      simp only [List.length_append, List.length_cons]
      omega
    rw [ih hnc' f hflen]
    have harith : f - (a'.length + p'.length + 1)
        = f + 1 - ((c :: a').length + p'.length + 1) := by
      simp only [List.length_cons]; omega
    rw [harith]
    simp [List.append_assoc]

/-- Leftmost replacement through a brace-free left part: the single occurrence
of the pattern bordered by a brace-free text on its left is replaced and
scanning continues after it.  The replacement text is NOT rescanned. -/
theorem replaceAll_append (p' rep b : Str) (a : Str) (hnc : NoCurly a) :
    replaceAll ('{' :: p') rep (a ++ ('{' :: p') ++ b)
      = a ++ rep ++ replaceAll ('{' :: p') rep b := by
  unfold replaceAll
  rw [goReplace_append p' rep b a hnc _ (Nat.le_refl _)]
  congr 1
  apply goReplace_fuel _ _ (by simp)
  · simp only [List.length_append, List.length_cons]; omega
  · exact Nat.le_refl _

/-- `indexOf` misses exactly when the pattern is not a substring. -/
theorem strIndexOf_eq_none {pat : Str} :
    ∀ {l : Str}, strIndexOf pat l = none ↔ ¬ pat <:+: l := by
  intro l
  induction l with
  | nil =>
    cases pat with
    | nil => simp [strIndexOf, List.isPrefixOf]
    | cons c p' => simp [strIndexOf, List.isPrefixOf]
  | cons c rest ih =>
    by_cases hpre : pat.isPrefixOf (c :: rest)
    · have hinf : pat <:+: c :: rest := (List.isPrefixOf_iff_prefix.mp hpre).isInfix
      simp [strIndexOf, hpre, hinf]
    · have hnp : ¬ pat <+: c :: rest := fun h => hpre (List.isPrefixOf_iff_prefix.mpr h)
      simp only [strIndexOf, if_neg hpre]
      constructor
      · intro h hcon
        have h0 : strIndexOf pat rest = none := by
          cases hsi : strIndexOf pat rest with
          | none => rfl
          | some n => rw [hsi] at h; exact Option.noConfusion h
        rcases List.infix_cons_iff.mp hcon with h1 | h2
        · exact hnp h1
        · exact (ih.mp h0) h2
      · intro h
        have h2 : ¬ pat <:+: rest := fun hi2 => h (List.infix_cons hi2)
        rw [ih.mpr h2]
        rfl

/-- The Bool containment test agrees with substring occurrence. -/
theorem strContains_false_iff (html pat : Str) :
    strContains html pat = false ↔ ¬ pat <:+: html := by
  unfold strContains
  cases hsi : strIndexOf pat html with
  | none =>
    simp only [Option.isSome_none]
    exact ⟨fun _ => strIndexOf_eq_none.mp hsi, fun _ => trivial⟩
  | some i =>
    simp only [Option.isSome_some]
    constructor
    · intro h
      exact Bool.noConfusion h
    · intro h
      exact absurd (strIndexOf_eq_none.mpr h) (by rw [hsi]; exact fun hx => Option.noConfusion hx)

theorem mkTemplate_pull (x y : Str) (ks : List (Str × Str)) :
    mkTemplate (x ++ y) ks = x ++ mkTemplate y ks := by
  cases ks with
  | nil => rfl
  | cons e rest =>
    obtain ⟨k, seg⟩ := e
    simp [mkTemplate, List.append_assoc]

theorem mkResult_pull (x y : Str) (ks : List (Str × Str)) (vs : List Str) :
    mkResult (x ++ y) ks vs = x ++ mkResult y ks vs := by
  cases ks with
  | nil => simp [mkResult]
  | cons e rest =>
    obtain ⟨k, seg⟩ := e
    cases vs with
    | nil => simp [mkResult]
    | cons v vrest => simp [mkResult, List.append_assoc]

/-- The build.js renderer, on a template whose placeholders appear once each,
in the order of the variable map, with brace-free values: every placeholder
is replaced by its key's value, literally. -/
theorem render_chain :
    ∀ (ks : List (Str × Str)) (vs : List Str) (seg0 : Str),
      vs.length = ks.length → NoCurly seg0 → (∀ v ∈ vs, NoCurly v) → SegsOk ks →
      render (mkTemplate seg0 ks) (zipVars ks vs) = mkResult seg0 ks vs := by
  intro ks
  induction ks with
  | nil =>
    intro vs seg0 hlen _ _ _
    have : vs = [] := List.eq_nil_of_length_eq_zero hlen
    subst this
    rfl
  | cons e rest ih =>
    obtain ⟨k, seg⟩ := e
    intro vs seg0 hlen h0 hvs hok
    match vs, hlen with
    | v :: vrest, hlen =>
      obtain ⟨hseg, hinf, hrest⟩ := hok
      have hv : NoCurly v := hvs v (List.mem_cons_self _ _)
      have hvrest : ∀ w ∈ vrest, NoCurly w := fun w hw => hvs w (List.mem_cons_of_mem _ hw)
      show render (replaceAll (placeholder k) v (mkTemplate seg0 ((k, seg) :: rest)))
          (zipVars rest vrest) = _
      have hstep : replaceAll (placeholder k) v (mkTemplate seg0 ((k, seg) :: rest))
          = seg0 ++ v ++ mkTemplate seg rest := by
        show replaceAll (placeholder k) v (seg0 ++ placeholder k ++ mkTemplate seg rest) = _
        rw [placeholder_eq, replaceAll_append _ _ _ _ h0, ← placeholder_eq,
          replaceAll_no_occurrence v ((strContains_false_iff _ _).mp hinf)]
      rw [hstep]
      have hshape : seg0 ++ v ++ mkTemplate seg rest
          = mkTemplate (seg0 ++ v ++ seg) rest := by
        rw [mkTemplate_pull (seg0 ++ v) seg rest, List.append_assoc]
      rw [hshape]
      rw [ih vrest (seg0 ++ v ++ seg) (by simpa using hlen)
        ((h0.append hv).append hseg) hvrest hrest]
      rw [mkResult_pull (seg0 ++ v) seg rest vrest, List.append_assoc]
      simp [mkResult, List.append_assoc]

-- ---------------------------------------------------------------------------
-- Small helpers about substring containment of appended texts.
-- ---------------------------------------------------------------------------

theorem infix_append_right (a : Str) {l b : Str} (h : l <:+: b) : l <:+: a ++ b := by
  obtain ⟨s, t, rfl⟩ := h
  exact ⟨a ++ s, t, by simp [List.append_assoc]⟩

theorem infix_middle (a l b : Str) : l <:+: a ++ (l ++ b) := ⟨a, b, by simp⟩

-- ---------------------------------------------------------------------------
-- Helper lemmas about the extraction main loop and the post-id lookup.
-- ---------------------------------------------------------------------------

theorem extractRun_foldl (entries : List HomeEntry) (pages : Str → Option ParsedPage) :
    ∀ (es : List HomeEntry) (acc : List Person × Nat),
      es.foldl (fun acc e =>
        match pages e.slug with
        | none => (acc.1, acc.2 + 1)
        | some pp => (acc.1 ++ [mkPerson entries e pp], acc.2)) acc
      = (acc.1 ++ es.filterMap (fun e => (pages e.slug).map (mkPerson entries e)),
         acc.2 + es.countP (fun e => (pages e.slug).isNone)) := by
  intro es
  induction es with
  | nil => intro acc; simp
  | cons e es ih =>
    intro acc
    simp only [List.foldl_cons, List.filterMap_cons, List.countP_cons]
    cases hpe : pages e.slug with
    | none =>
      rw [ih]
      simp [hpe]
      omega
    | some pp =>
      rw [ih]
      simp [hpe, List.append_assoc]

/-- The People collection produced by the extraction main loop. -/
theorem extractRun_fst (entries : List HomeEntry) (pages : Str → Option ParsedPage) :
    (extractRun entries pages).1
      = entries.filterMap (fun e => (pages e.slug).map (mkPerson entries e)) := by
  unfold extractRun
  rw [extractRun_foldl entries pages entries ([], 0)]
  simp

/-- The warning count of the extraction main loop. -/
theorem extractRun_snd (entries : List HomeEntry) (pages : Str → Option ParsedPage) :
    (extractRun entries pages).2
      = entries.countP (fun e => (pages e.slug).isNone) := by
  unfold extractRun
  rw [extractRun_foldl entries pages entries ([], 0)]
  simp

theorem pbp_skip (i : Nat) :
    ∀ (l : List Person) (init : Nat → Option Person),
      (∀ q ∈ l, q.post_id ≠ i) → (l.foldl pbpStep init) i = init i := by
  intro l
  induction l with
  | nil => intro init _; rfl
  | cons q l ih =>
    intro init hq
    simp only [List.foldl_cons]
    rw [ih _ (fun r hr => hq r (List.mem_cons_of_mem _ hr))]
    have : i ≠ q.post_id := fun h => hq q (List.mem_cons_self _ _) h.symm
    simp [pbpStep, this]

/-- `catPeople` resolves exactly the ids with a record, in `post_ids` order. -/
theorem catPeople_eq (people : List Person) (cat : Category) :
    catPeople people cat = cat.post_ids.filterMap (peopleByPostId people) := by
  unfold catPeople
  rw [List.filterMap_map]
  rfl

theorem intercalate_one (sep x : Str) : List.intercalate sep [x] = x := by
  simp [List.intercalate]

/-- Unfolding of `extractBetween` once the start marker has been found. -/
theorem extractBetween_of_start (html s e : Str) (i : Nat)
    (hi : strIndexOf s html = some i) :
    extractBetween html s e
      = (match strIndexOf e (html.drop (i + s.length)) with
         | none => []
         | some j => (html.drop (i + s.length)).take j) := by
  unfold extractBetween
  rw [hi]

-- ---------------------------------------------------------------------------
-- The claims.
-- ---------------------------------------------------------------------------

/-- C6 (confirmed): build.js first wipes the previous output tree
(`fs.rmSync`), and every page it writes is a function of the Store and the
templates alone, so two runs over the same unchanged Store produce
byte-identical output trees regardless of what was in `_output` before, and
a rerun over its own output changes nothing. -/
theorem build_output_reproducible :
    ∀ (assetFiles : FS) (fav : Str) (people : List Person) (cats : List Category)
      (w₁ w₂ : World),
      buildRun assetFiles fav people cats w₁ = buildRun assetFiles fav people cats w₂
      ∧ buildRun assetFiles fav people cats (buildRun assetFiles fav people cats w₁)
        = buildRun assetFiles fav people cats w₁ := by
  intro assetFiles fav people cats w₁ w₂
  exact ⟨rfl, rfl⟩

/-- C7 (confirmed): the extraction main loop merges each listed entry with
its parsed document; a parsed `post_id` of 0 ("not found") is replaced by
the listing entry's id, and a non-zero parsed id is kept. -/
theorem post_id_fallback :
    ∀ (entries : List HomeEntry) (pages : Str → Option ParsedPage),
      (extractRun entries pages).1
        = entries.filterMap (fun e => (pages e.slug).map (mkPerson entries e))
      ∧ (∀ (e : HomeEntry) (pp : ParsedPage), pp.post_id = 0 →
          (mkPerson entries e pp).post_id = e.post_id)
      ∧ (∀ (e : HomeEntry) (pp : ParsedPage), pp.post_id ≠ 0 →
          (mkPerson entries e pp).post_id = pp.post_id) := by
  intro entries pages
  refine ⟨extractRun_fst entries pages, ?_, ?_⟩
  · intro e pp h
    simp [mkPerson, h]
  · intro e pp h
    simp [mkPerson, h]

/-- Witness for C7: a parsed page with `post_id = 0` listed under id 7 ends
up with post_id 7 in the extracted collection. -/
theorem post_id_fallback_witness :
    (extractRun witEntries witPages).1
      = witEntries.filterMap (fun e => (witPages e.slug).map (mkPerson witEntries e))
    ∧ (mkPerson witEntries ⟨7, "ada".toList, "Ada".toList, "Engineer".toList⟩
        witParsed).post_id = 7 := by
  refine ⟨(post_id_fallback witEntries witPages).1, ?_⟩
  exact (post_id_fallback witEntries witPages).2.1
    ⟨7, "ada".toList, "Ada".toList, "Engineer".toList⟩ witParsed (by decide)

/-- C8 (confirmed): a listed slug whose per-entity document is absent is
skipped — it does not appear in the final People collection — one warning is
recorded for each such entry, and the remaining entries are still extracted
(the collection is the filterMap over ALL entries). -/
theorem missing_document_skipped :
    ∀ (entries : List HomeEntry) (pages : Str → Option ParsedPage) (s : Str),
      pages s = none →
      s ∉ (extractRun entries pages).1.map Person.slug
      ∧ (extractRun entries pages).2 = entries.countP (fun e => (pages e.slug).isNone)
      ∧ (extractRun entries pages).1
        = entries.filterMap (fun e => (pages e.slug).map (mkPerson entries e)) := by
  intro entries pages s hs
  refine ⟨?_, extractRun_snd entries pages, extractRun_fst entries pages⟩
  intro hmem
  rw [extractRun_fst entries pages] at hmem
  rcases List.mem_map.mp hmem with ⟨per, hper, hslug⟩
  rcases List.mem_filterMap.mp hper with ⟨e, -, he⟩
  cases hpe : pages e.slug with
  | none => rw [hpe] at he; exact Option.noConfusion he
  | some pp =>
    rw [hpe] at he
    have : mkPerson entries e pp = per := Option.some.injEq _ _ ▸ he
    have hes : per.slug = e.slug := by rw [← this]; rfl
    rw [hes] at hslug
    rw [hslug] at hpe
    rw [hs] at hpe
    exact Option.noConfusion hpe

/-- Witness for C8: `bob` is listed but has no document; he is absent from
the collection, one warning is counted, and `ada` is still extracted. -/
theorem missing_document_skipped_witness :
    "bob".toList ∉ (extractRun witEntries witPages).1.map Person.slug
    ∧ (extractRun witEntries witPages).2
      = witEntries.countP (fun e => (witPages e.slug).isNone)
    ∧ (extractRun witEntries witPages).1
      = witEntries.filterMap (fun e => (witPages e.slug).map (mkPerson witEntries e)) :=
  missing_document_skipped witEntries witPages "bob".toList (by decide)

/-- C9 (confirmed): the extraction helpers are total and default to the
empty string: `extractBetween` returns `""` when the start marker is absent,
or when the end marker is absent after the start marker's occurrence; the
`extractMatch` wrapper returns `""` when the regex does not match. -/
theorem extract_helpers_default_empty :
    (∀ html s e : Str, ¬ s <:+: html → extractBetween html s e = [])
    ∧ (∀ (html s e : Str) (i : Nat), strIndexOf s html = some i →
        ¬ e <:+: html.drop (i + s.length) → extractBetween html s e = [])
    ∧ (∀ (html : Str) (matcher : Str → Option Str),
        matcher html = none → extractMatch html matcher = []) := by
  refine ⟨?_, ?_, ?_⟩
  · intro html s e h
    unfold extractBetween
    rw [strIndexOf_eq_none.mpr h]
  · intro html s e i hi he
    rw [extractBetween_of_start html s e i hi,
      strIndexOf_eq_none.mpr he]
  · intro html matcher h
    unfold extractMatch
    rw [h]
    rfl

/-- Witness for C9: concrete marker misses come back empty. -/
theorem extract_helpers_default_empty_witness :
    extractBetween "hello".toList "x".toList "y".toList = []
    ∧ extractBetween "hello".toList "l".toList "z".toList = []
    ∧ extractMatch "hello".toList (fun _ => none) = [] :=
  ⟨extract_helpers_default_empty.1 "hello".toList "x".toList "y".toList (by decide),
   extract_helpers_default_empty.2.1 "hello".toList "l".toList "z".toList 2
     (by decide) (by decide),
   extract_helpers_default_empty.2.2 "hello".toList (fun _ => none) rfl⟩

theorem replaceAll_nil (pat rep : Str) : replaceAll pat rep [] = [] := rfl

/-- A text that is exactly the placeholder is replaced by the value, and the
value is not rescanned for the same key. -/
theorem replaceAll_self (k rep : Str) :
    replaceAll (placeholder k) rep (placeholder k) = rep := by
  rw [placeholder_eq k]
  have h := replaceAll_append ('{' :: (k ++ ['}', '}'])) rep [] [] (by simp [NoCurly])
  simpa [replaceAll_nil] using h

/-- A variable map none of whose placeholders occurs in the template leaves
the template untouched. -/
theorem render_untouched :
    ∀ (vars : List (Str × Str)) (t : Str),
      (∀ kv ∈ vars, ¬ placeholder kv.1 <:+: t) → render t vars = t := by
  intro vars
  induction vars with
  | nil => intro t _; rfl
  | cons kv rest ih =>
    intro t h
    show render (replaceAll (placeholder kv.1) kv.2 t) rest = t
    rw [replaceAll_no_occurrence kv.2 (h kv (List.mem_cons_self _ _))]
    exact ih t (fun e he => h e (List.mem_cons_of_mem _ he))

/-- Counterexample to C3: `render` is NOT non-recursive across keys.  With
the map `A ↦ "\x7b\x7bB\x7d\x7d", B ↦ "x"` (in that order) on the template
`"\x7b\x7bA\x7d\x7d"`, the placeholder text `\x7b\x7bB\x7d\x7d` that arrived
inside A's substituted value IS substituted by the later B pass: the result
is `"x"`, not the untouched `"\x7b\x7bB\x7d\x7d"` the claim predicts. -/
theorem render_substitutes_inside_earlier_value :
    render (placeholder "A".toList)
      [("A".toList, placeholder "B".toList), ("B".toList, "x".toList)] = "x".toList
    ∧ render (placeholder "A".toList)
      [("A".toList, placeholder "B".toList), ("B".toList, "x".toList)]
      ≠ placeholder "B".toList := by
  constructor
  · decide
  · decide

/-- C3 (corrected): `render` substitutes the recognized placeholders
sequentially in map order; within one key's pass every occurrence of that
placeholder is replaced by the value literally and the inserted value is not
rescanned for that key; a template with no recognized placeholder (in
particular unrecognized placeholder-like text) is left untouched; but a
LATER key's placeholder occurring inside an earlier-substituted value is
substituted when that key's turn comes. -/
theorem render_sequential_substitution :
    (∀ (k v a b : Str), NoCurly a → ¬ placeholder k <:+: b →
      render (a ++ placeholder k ++ b) [(k, v)] = a ++ v ++ b)
    ∧ (∀ (k v a b c : Str), NoCurly a → NoCurly b → ¬ placeholder k <:+: c →
      render (a ++ placeholder k ++ b ++ placeholder k ++ c) [(k, v)]
        = a ++ v ++ b ++ v ++ c)
    ∧ (∀ (t : Str) (vars : List (Str × Str)),
        (∀ kv ∈ vars, ¬ placeholder kv.1 <:+: t) → render t vars = t)
    ∧ (∀ (a b x : Str),
        render (placeholder a) [(a, placeholder b), (b, x)] = x) := by
  refine ⟨?_, ?_, ?_, ?_⟩
  · intro k v a b ha hb
    show replaceAll (placeholder k) v (a ++ placeholder k ++ b) = a ++ v ++ b
    rw [placeholder_eq k, replaceAll_append _ _ _ _ ha, ← placeholder_eq k,
      replaceAll_no_occurrence v hb]
  · intro k v a b c ha hb hc
    show replaceAll (placeholder k) v
      (a ++ placeholder k ++ b ++ placeholder k ++ c) = a ++ v ++ b ++ v ++ c
    have hassoc : a ++ placeholder k ++ b ++ placeholder k ++ c
        = a ++ placeholder k ++ (b ++ placeholder k ++ c) := by
      simp [List.append_assoc]
    rw [hassoc, placeholder_eq k, replaceAll_append _ _ _ _ ha,
      replaceAll_append _ _ _ _ hb, ← placeholder_eq k,
      replaceAll_no_occurrence v hc]
    simp [List.append_assoc]
  · intro t vars h
    exact render_untouched vars t h
  · intro a b x
    show replaceAll (placeholder b) x
      (replaceAll (placeholder a) (placeholder b) (placeholder a)) = x
    rw [replaceAll_self, replaceAll_self]

/-- Witness for C3's amended statement at concrete inputs. -/
theorem render_sequential_substitution_witness :
    render ("q:".toList ++ placeholder "K".toList ++ ":r".toList)
      [("K".toList, "VAL".toList)] = "q:".toList ++ "VAL".toList ++ ":r".toList
    ∧ render ("q".toList ++ placeholder "K".toList ++ "-".toList
        ++ placeholder "K".toList ++ "r".toList)
      [("K".toList, "W".toList)]
      = "q".toList ++ "W".toList ++ "-".toList ++ "W".toList ++ "r".toList
    ∧ render "plain \x7b\x7bOTHER\x7d\x7d text".toList
        [("K".toList, "v".toList)] = "plain \x7b\x7bOTHER\x7d\x7d text".toList
    ∧ render (placeholder "A".toList)
        [("A".toList, placeholder "B".toList), ("B".toList, "y".toList)] = "y".toList :=
  ⟨render_sequential_substitution.1 "K".toList "VAL".toList "q:".toList ":r".toList
      (by decide) (by decide),
   render_sequential_substitution.2.1 "K".toList "W".toList "q".toList "-".toList
      "r".toList (by decide) (by decide) (by decide),
   render_sequential_substitution.2.2.1 "plain \x7b\x7bOTHER\x7d\x7d text".toList
      [("K".toList, "v".toList)] (by decide),
   render_sequential_substitution.2.2.2 "A".toList "B".toList "y".toList⟩

/-- C4 (confirmed): a category page is always produced; its cards are
exactly those of the post_ids that resolve to a PersonRecord, in post_ids
order; dangling ids are silently dropped; nothing fails (the build is a
total function that writes the page). -/
theorem category_dangling_ids_dropped :
    ∀ (assetFiles : FS) (fav : Str) (people : List Person) (cats : List Category)
      (cat : Category), cat ∈ cats →
      (categoryPath cat, categoryPageHtml people cats cat)
        ∈ buildSite assetFiles fav people cats
      ∧ catPeople people cat = cat.post_ids.filterMap (peopleByPostId people)
      ∧ categoryCardsHtml people cat
        = List.intercalate "\n\n<!-- end loop -->\n".toList
            ((cat.post_ids.filterMap (peopleByPostId people)).map categoryCard) := by
  intro assetFiles fav people cats cat hmem
  refine ⟨?_, catPeople_eq people cat, ?_⟩
  · have h1 : (categoryPath cat, categoryPageHtml people cats cat)
        ∈ cats.map (fun c => (categoryPath c, categoryPageHtml people cats c)) :=
      List.mem_map_of_mem _ hmem
    simp only [buildSite, List.mem_append]
    exact Or.inl (Or.inr h1)
  · unfold categoryCardsHtml
    rw [catPeople_eq]

/-- Witness for C4: the scenario's `frontend` category (dangling id 99). -/
theorem category_dangling_ids_dropped_witness :
    (categoryPath frontendCat, categoryPageHtml demoPeople demoCats frontendCat)
      ∈ buildSite [] [] demoPeople demoCats
    ∧ catPeople demoPeople frontendCat
      = frontendCat.post_ids.filterMap (peopleByPostId demoPeople)
    ∧ categoryCardsHtml demoPeople frontendCat
      = List.intercalate "\n\n<!-- end loop -->\n".toList
          ((frontendCat.post_ids.filterMap (peopleByPostId demoPeople)).map categoryCard) :=
  category_dangling_ids_dropped [] [] demoPeople demoCats frontendCat (by decide)

theorem nocurly_intercalate (sep : Str) :
    ∀ (xs : List Str), NoCurly sep → (∀ x ∈ xs, NoCurly x) →
      NoCurly (List.intercalate sep xs)
  | [], _, _ => by simp [List.intercalate, NoCurly]
  | [x], _, h => by simpa [List.intercalate] using h x (by simp)
  | x :: y :: tl, hsep, h => by
    have ih := nocurly_intercalate sep (y :: tl) hsep
      (fun z hz => h z (List.mem_cons_of_mem _ hz))
    have hx := h x (List.mem_cons_self _ _)
    have hstep : List.intercalate sep (x :: y :: tl)
        = x ++ sep ++ List.intercalate sep (y :: tl) := by
      simp [List.intercalate, List.intersperse_cons_cons, List.append_assoc]
    rw [hstep]
    exact (hx.append hsep).append ih

/-- Closed form of `buildHead`: the extra head markup is spliced into the
head partial. -/
theorem buildHead_eq (extra : Str) (h : NoCurly extra) :
    buildHead extra = "<head>\n<meta charset=\"utf-8\">\n".toList
      ++ extra ++ "\n</head>\n".toList := by
  have hvs : ∀ v ∈ [extra], NoCurly v := by
    intro v hv
    rw [List.mem_singleton] at hv
    subst hv
    exact h
  exact render_chain [("HEAD_EXTRA".toList, "\n</head>\n".toList)] [extra]
    "<head>\n<meta charset=\"utf-8\">\n".toList rfl (by decide) hvs (by decide)

theorem buildHead_nocurly (extra : Str) (h : NoCurly extra) :
    NoCurly (buildHead extra) := by
  rw [buildHead_eq extra h]
  exact (NoCurly.append (by decide) h).append (by decide)

theorem personHeadExtra_nocurly (p : Person) (hp : PersonNoCurly p) :
    NoCurly (personHeadExtra p) := by
  obtain ⟨hslug, -, -, -, -, -, -, -, -, -, -, hprev, hnext⟩ := hp
  have hbase : NoCurly ("<link rel=\"canonical\" href=\"/".toList
      ++ p.slug ++ "/\" />".toList) :=
    (NoCurly.append (by decide) hslug).append (by decide)
  cases hpv : p.prev with
  | none =>
    cases hnv : p.next with
    | none =>
      simp only [personHeadExtra, hpv, hnv]
      exact hbase
    | some nx =>
      rw [hnv] at hnext
      obtain ⟨hn1, hn2⟩ := hnext
      simp only [personHeadExtra, hpv, hnv]
      exact ((((hbase.append (by decide)).append hn1).append
        (by decide)).append hn2).append (by decide)
  | some pr =>
    rw [hpv] at hprev
    obtain ⟨hp1, hp2⟩ := hprev
    have hwithprev : NoCurly (("<link rel=\"canonical\" href=\"/".toList
        ++ p.slug ++ "/\" />".toList)
        ++ "\n<link rel='prev' title='".toList ++ pr.name
        ++ "' href='/".toList ++ pr.slug ++ "/' />".toList) :=
      ((((hbase.append (by decide)).append hp1).append
        (by decide)).append hp2).append (by decide)
    cases hnv : p.next with
    | none =>
      simp only [personHeadExtra, hpv, hnv]
      exact hwithprev
    | some nx =>
      rw [hnv] at hnext
      obtain ⟨hn1, hn2⟩ := hnext
      simp only [personHeadExtra, hpv, hnv]
      exact ((((hwithprev.append (by decide)).append hn1).append
        (by decide)).append hn2).append (by decide)

theorem linkItem_nocurly (l : PersonalLink) (h1 : NoCurly l.url)
    (h2 : NoCurly l.label) : NoCurly (linkItem l) := by
  unfold linkItem
  exact (((NoCurly.append (by decide) h1).append (by decide)).append h2).append (by decide)

theorem linksHtml_nocurly (p : Person)
    (h : ∀ l ∈ p.personal_links, NoCurly l.url ∧ NoCurly l.label) :
    NoCurly (linksHtml p) := by
  unfold linksHtml
  refine nocurly_intercalate _ _ (by decide) ?_
  intro x hx
  rcases List.mem_map.mp hx with ⟨l, hl, rfl⟩
  exact linkItem_nocurly l (h l hl).1 (h l hl).2

/-- The person-page template skeleton is well-formed. -/
theorem personKS_ok : SegsOk personKS := by decide

/-- Closed form of a person page, for a record with brace-free fields:
every placeholder is replaced by its value, once, in template order. -/
theorem personPageHtml_eq (p : Person) (hp : PersonNoCurly p) :
    personPageHtml p
      = mkResult "<!doctype html>\n<html>\n".toList personKS (personVals p) := by
  have hp' := hp
  obtain ⟨hslug, hname, hhero, hthumb, hyears, hrole, hloc, hdate, habs,
    hcontent, hlinks, hprev, hnext⟩ := hp'
  have hvs : ∀ v ∈ personVals p, NoCurly v := by
    intro v hv
    simp only [personVals, List.mem_cons, List.not_mem_nil, or_false] at hv
    rcases hv with rfl | rfl | rfl | rfl | rfl | rfl | rfl | rfl | rfl | rfl | rfl | rfl | rfl | rfl
    · exact buildHead_nocurly _ (personHeadExtra_nocurly p hp)
    · decide
    · decide
    · decide
    · exact hname
    · exact hhero
    · exact hthumb
    · exact hyears
    · exact hrole
    · exact hloc
    · exact hdate
    · exact habs
    · exact linksHtml_nocurly p hlinks
    · exact hcontent
  exact render_chain personKS (personVals p) "<!doctype html>\n<html>\n".toList
    rfl (by decide) hvs personKS_ok

/-- Every substituted value occurs verbatim in the fully substituted text. -/
theorem value_infix_mkResult :
    ∀ (ks : List (Str × Str)) (vs : List Str) (seg0 : Str) (v : Str),
      vs.length = ks.length → v ∈ vs → v <:+: mkResult seg0 ks vs := by
  intro ks
  induction ks with
  | nil =>
    intro vs seg0 v hlen hv
    have hnil : vs = [] := List.eq_nil_of_length_eq_zero hlen
    subst hnil
    cases hv
  | cons e rest ih =>
    obtain ⟨k, seg⟩ := e
    intro vs seg0 v hlen hv
    match vs, hlen with
    | v' :: vrest, hlen =>
      rcases List.mem_cons.mp hv with rfl | hv'
      · exact ⟨seg0, mkResult seg rest vrest, rfl⟩
      · exact infix_append_right _ (ih vrest seg v (by simpa using hlen) hv')

/-- Counterexample to C5: a record whose `name` is placeholder text for a
later key of the map.  The rendered page does not contain the name verbatim
(the later pass substituted through it), and the Verifier's round-trip
check on that page counts one error. -/
theorem person_page_name_not_recovered :
    ¬ (evilPerson.name <:+: personPageHtml evilPerson)
    ∧ (verifyPerson (buildSite [] [] [evilPerson] []) ⟨0, 0⟩ evilPerson).errors = 1 := by
  constructor
  · exact (strContains_false_iff (personPageHtml evilPerson) evilPerson.name).mp (by decide)
  · decide

/-- C5 (corrected): for every PersonRecord whose text fields contain no
curly brace (hence no placeholder-like text), the page written at
`/slug/index.html` contains the name, hero-image filename and thumbnail
filename verbatim — so re-parsing recovers them — and when
`interview_content` exceeds the 100-character threshold its leading
80-character substring appears verbatim too. -/
theorem person_page_round_trip :
    ∀ (assetFiles : FS) (fav : Str) (people : List Person) (cats : List Category)
      (p : Person), p ∈ people → PersonNoCurly p →
      (personPath p, personPageHtml p) ∈ buildSite assetFiles fav people cats
      ∧ p.name <:+: personPageHtml p
      ∧ p.hero_image <:+: personPageHtml p
      ∧ p.thumbnail <:+: personPageHtml p
      ∧ (100 < p.interview_content.length →
          p.interview_content.take 80 <:+: personPageHtml p) := by
  intro assetFiles fav people cats p hmem hp
  have hpage := personPageHtml_eq p hp
  have hval : ∀ v : Str, v ∈ personVals p → v <:+: personPageHtml p := by
    intro v hv
    have h := value_infix_mkResult personKS (personVals p)
      "<!doctype html>\n<html>\n".toList v rfl hv
    rw [← hpage] at h
    exact h
  refine ⟨?_, ?_, ?_, ?_, ?_⟩
  · have h1 : (personPath p, personPageHtml p)
        ∈ people.map (fun q => (personPath q, personPageHtml q)) :=
      List.mem_map_of_mem _ hmem
    simp only [buildSite, List.mem_append]
    exact Or.inl (Or.inl (Or.inl (Or.inr h1)))
  · exact hval p.name (by simp [personVals])
  · exact hval p.hero_image (by simp [personVals])
  · exact hval p.thumbnail (by simp [personVals])
  · intro hlen
    exact (List.take_prefix 80 p.interview_content).isInfix.trans
      (hval p.interview_content (by simp [personVals]))

/-- Witness for C5's amended statement: the scenario record `ada`. -/
theorem person_page_round_trip_witness :
    (personPath ada, personPageHtml ada) ∈ buildSite [] [] demoPeople demoCats
    ∧ ada.name <:+: personPageHtml ada
    ∧ ada.hero_image <:+: personPageHtml ada
    ∧ ada.thumbnail <:+: personPageHtml ada
    ∧ (100 < ada.interview_content.length →
        ada.interview_content.take 80 <:+: personPageHtml ada) :=
  person_page_round_trip [] [] demoPeople demoCats ada (by decide) (by decide)

/-- Counterexample to C1: for the spec's own scenario (frontend has
post_ids [42, 99], id 99 dangling), the Verifier's category pass counts ONE
fatal error for the frontend page — the `id="post-99"` marker check fails —
not zero as the claim states. -/
theorem category_dangling_id_flagged_fatal :
    (verifyCategory demoOut ⟨0, 0⟩ frontendCat).errors = 1 := by
  decide

/-- C1 (corrected): rendering the scenario store produces the category
pages; the frontend page contains exactly the cards of the resolvable ids
(card 42 present, no card 99); and the Verifier's category pass reports one
fatal error per unresolvable id of a category page — zero for `backend`,
one for `frontend` (its dangling id 99). -/
theorem category_scenario_render_and_verify :
    fsRead demoOut (categoryPath frontendCat)
      = some (categoryPageHtml demoPeople demoCats frontendCat)
    ∧ fsRead demoOut (categoryPath backendCat)
      = some (categoryPageHtml demoPeople demoCats backendCat)
    ∧ catPeople demoPeople frontendCat = [ada]
    ∧ strContains (categoryPageHtml demoPeople demoCats frontendCat)
        (postMarker 42) = true
    ∧ strContains (categoryPageHtml demoPeople demoCats frontendCat)
        (postMarker 99) = false
    ∧ (verifyCategory demoOut ⟨0, 0⟩ backendCat).errors
        = (backendCat.post_ids.filter
            (fun i => (peopleByPostId demoPeople i).isNone)).length
    ∧ (verifyCategory demoOut ⟨0, 0⟩ frontendCat).errors
        = (frontendCat.post_ids.filter
            (fun i => (peopleByPostId demoPeople i).isNone)).length := by
  refine ⟨?_, ?_, ?_, ?_, ?_, ?_, ?_⟩ <;> decide

theorem check_errors_le (b : Bool) (s : VState) : s.errors ≤ (check b s).errors := by
  unfold check
  split
  · exact Nat.le_refl _
  · exact Nat.le_succ _

theorem exitCode_ne_zero_iff (s : VState) : exitCode s ≠ 0 ↔ 0 < s.errors := by
  unfold exitCode
  split
  · simpa using by omega
  · simp
    omega

/-- When the homepage document is missing, the static-pages section has
already counted at least one error before verify.js crashes reading it. -/
theorem verifyStatic_errors_pos (out : FS) (s : VState)
    (h : fsRead out ["index.html".toList] = none) :
    0 < (verifyStatic out s).errors := by
  unfold verifyStatic
  rw [h]
  refine Nat.lt_of_lt_of_le ?_ (check_errors_le _ _)
  refine Nat.lt_of_lt_of_le ?_ (check_errors_le _ _)
  refine Nat.lt_of_lt_of_le ?_ (check_errors_le _ _)
  refine Nat.lt_of_lt_of_le ?_ (check_errors_le _ _)
  have h1 : (check (none : Option Str).isSome s).errors = s.errors + 1 := by
    simp [check]
  omega

/-- C2 (confirmed): the verify.js process exits non-zero exactly when its
fatal-error counter is positive at the end of the run (also on the one crash
path, where a failed static check has already made the counter positive),
and `warn` never touches the error counter or the exit status. -/
theorem verifier_exit_iff_errors :
    ∀ (out : FS) (people : List Person) (cats : List Category)
      (refsOf : Str → List Str) (assetExists : Str → Bool) (cssRefs : List Str),
      (exitOf (runVerify out people cats refsOf assetExists cssRefs) ≠ 0
        ↔ 0 < errorsOf (runVerify out people cats refsOf assetExists cssRefs))
      ∧ (∀ s : VState, (warn s).errors = s.errors ∧ exitCode (warn s) = exitCode s) := by
  intro out people cats refsOf assetExists cssRefs
  constructor
  · unfold runVerify
    cases hh : fsRead out ["index.html".toList] with
    | none =>
      simp only [exitOf, errorsOf]
      constructor
      · intro _
        exact verifyStatic_errors_pos out _ hh
      · intro _
        exact one_ne_zero
    | some home =>
      simp only [exitOf, errorsOf]
      exact exitCode_ne_zero_iff _
  · intro s
    exact ⟨rfl, rfl⟩

/-- C10 (confirmed): when two PersonRecords share a post_id, the
`peopleByPostId` lookup is last-write-wins: the record occurring later in
input order is the one every category card for that id renders. -/
theorem duplicate_post_id_last_wins :
    ∀ (l₁ l₂ l₃ : List Person) (p₁ p₂ : Person) (i : Nat),
      p₁.post_id = i → p₂.post_id = i → (∀ q ∈ l₃, q.post_id ≠ i) →
      peopleByPostId (l₁ ++ p₁ :: l₂ ++ p₂ :: l₃) i = some p₂
      ∧ (∀ cat : Category, catPeople (l₁ ++ p₁ :: l₂ ++ p₂ :: l₃) cat
          = cat.post_ids.filterMap (peopleByPostId (l₁ ++ p₁ :: l₂ ++ p₂ :: l₃)))
      ∧ (∀ s d : Str, categoryCardsHtml (l₁ ++ p₁ :: l₂ ++ p₂ :: l₃) ⟨s, d, [i]⟩
          = categoryCard p₂) := by
  intro l₁ l₂ l₃ p₁ p₂ i h₁ h₂ h₃
  have hlook : peopleByPostId (l₁ ++ p₁ :: l₂ ++ p₂ :: l₃) i = some p₂ := by
    unfold peopleByPostId
    have hsplit : l₁ ++ p₁ :: l₂ ++ p₂ :: l₃ = (l₁ ++ p₁ :: l₂) ++ p₂ :: l₃ := by
      simp [List.append_assoc]
    rw [hsplit, List.foldl_append, List.foldl_cons]
    rw [pbp_skip i l₃ _ h₃]
    simp [pbpStep, h₂]
  refine ⟨hlook, fun cat => catPeople_eq _ cat, ?_⟩
  intro s d
  unfold categoryCardsHtml
  rw [catPeople_eq]
  show List.intercalate _ (([i].filterMap (peopleByPostId (l₁ ++ p₁ :: l₂ ++ p₂ :: l₃))).map categoryCard) = _
  rw [List.filterMap_cons, hlook]
  simp only [List.filterMap_nil, List.map_cons, List.map_nil]
  exact intercalate_one _ _

/-- Witness for C10: two records with post_id 5; the category card shows the
second one's data. -/
theorem duplicate_post_id_last_wins_witness :
    peopleByPostId [{ ada with post_id := 5 }, { evilPerson with post_id := 5 }] 5
      = some { evilPerson with post_id := 5 }
    ∧ (∀ cat : Category, catPeople [{ ada with post_id := 5 }, { evilPerson with post_id := 5 }] cat
        = cat.post_ids.filterMap (peopleByPostId [{ ada with post_id := 5 }, { evilPerson with post_id := 5 }]))
    ∧ (∀ s d : Str, categoryCardsHtml [{ ada with post_id := 5 }, { evilPerson with post_id := 5 }] ⟨s, d, [5]⟩
        = categoryCard { evilPerson with post_id := 5 }) := by
  have h := duplicate_post_id_last_wins [] [] [] { ada with post_id := 5 }
    { evilPerson with post_id := 5 } 5 rfl rfl (by intro q hq; cases hq)
  simpa using h

end Techies
